/-
Shallow embedding of `zato-server/src/zato/server/service/store.py` (the
ServiceStore: discovery, eligibility filtering, provenance capture and
registration of deployable services), together with theorems settling the
specification claims about it.

Conventions of the embedding:
* Python byte strings are `List Nat` (one Nat per byte).
* Exceptions are explicit: every effectful operation has the shape
  `World → Except PyError A × World`, so state changes made before a raise
  survive it, exactly as mutations on `self.services` do in Python.
* The ambient interpreter/library facilities the store calls into
  (`hashlib.sha256`, `uuid4`, `datetime.utcnow`, the module importer, the
  ODB callback, and the helpers of `zato.common.util` whose sources are not
  part of this tree) live in an `Env` record; facilities of the filesystem
  live in an `FS` record inside the mutable `World`.
-/
import Mathlib

set_option linter.unusedVariables false

/-- A raw Python byte string: one `Nat` per byte. -/
abbrev Bytes := List Nat

/-- Python exceptions that the modelled code can raise or catch. -/
inductive PyError where
  | typeError
  | attributeError
  | nameError (n : String)
  | valueError (msg : String)
  | ioError
  | osError
  | importError
  | exception
  deriving Repr, DecidableEq

/-- A Python class object as the store observes it: its `__module__` and
`__name__`, an optional `name` attribute, whether `issubclass(·, Service)`
holds, whether it *is* the `Service` (resp. `AdminService`) base class
itself, and whether it carries the `DONT_DEPLOY_ATTR_NAME` marker. -/
structure ServiceClass where
  modName : String
  clsName : String
  nameAttr : Option String
  isServiceSubclass : Bool
  isServiceBase : Bool
  isAdminServiceBase : Bool
  hasDontDeploy : Bool
  deriving Repr, DecidableEq

/-- A value exposed as a top-level attribute of a module: either a class
object or a non-class value (for which `issubclass` raises `TypeError`). -/
inductive PyObject where
  | cls (c : ServiceClass)
  | nonClass
  deriving Repr, DecidableEq

/-- A loaded Python module: its `__file__` and its named top-level
attributes in the order `dir(mod)` yields them. -/
structure PyModule where
  modFile : String
  attrs : List (String × PyObject)
  deriving Repr, DecidableEq

/-- Modelled from the spec: `zato.common.SourceInfo` (not under `src/`), the
provenance record with raw source bytes, digest, digest algorithm name and
source path; a fresh instance has no field set. -/
structure SourceInfo where
  source : Option Bytes := none
  path : Option String := none
  hash : Option String := none
  hash_method : Option String := none
  deriving Repr, DecidableEq

/-- One entry of `self.services`: the Python dict is created empty and its
keys are assigned one by one, so every field is optional. -/
structure ServiceRecord where
  deployment_info : Option String := none
  service_class : Option ServiceClass := none
  is_active : Option Bool := none
  deriving Repr, DecidableEq

/-- The arguments of one `self.odb.add_service(...)` call, recorded in the
order the store passes them. -/
structure OdbCall where
  name : String
  impl_name : String
  is_internal : Bool
  timestamp : String
  deployment_data : String
  source_info : SourceInfo
  deriving Repr, DecidableEq

/-- The filesystem as the store observes it: regular files with contents,
files whose `open(..., 'rb')` raises `IOError` even though they exist,
directories, and per-path modification times (`os.path.getmtime` succeeds
exactly on the paths listed there). -/
structure FS where
  files : List (String × Bytes)
  unreadable : List String
  dirs : List String
  mtimes : List (String × Nat)
  deriving Repr, DecidableEq

/-- The mutable state threaded through the store: the filesystem, the
in-memory registry `self.services`, and the log of ODB registrations. -/
structure World where
  fs : FS
  services : List (String × ServiceRecord)
  odbCalls : List OdbCall
  deriving Repr, DecidableEq

/-- The ambient, read-only facilities the store calls into.  `uuid4_hex` is
`uuid4().hex` of the single import instant (a string of lowercase hex
digits, modelled as its character list); `utcnow_iso` is
`datetime.utcnow().isoformat()`; `fs_safe_now` is the filesystem-safe
timestamp of `zato.common.util.fs_safe_now`; `sha256_hexdigest` is
`hashlib.sha256(...).hexdigest()`, kept uninterpreted since `hashlib` is
outside this tree; `is_archive_file` is `pip.download.is_archive_file`;
`pyDistFiles` is `zato.common.util.visit_py_source_from_distribution`
(modelled from the spec: the source files reachable under a distribution
directory per its own manifest); `archive_entries` gives the relative
paths and bytes an archive decompresses to; `modulesByFile` and
`modulesByName` are the importer (`imp.load_source` / `import_module`);
`add_service` is the durable-store callback `self.odb.add_service`. -/
structure Env where
  sha256_hexdigest : Bytes → String
  utcnow_iso : String
  fs_safe_now : String
  uuid4_hex : List Char
  is_archive_file : String → Bool
  pyDistFiles : String → List String
  archive_entries : String → List (String × Bytes)
  modulesByFile : List (String × PyModule)
  modulesByName : List (String × PyModule)
  add_service : String → String → Bool → String → String → SourceInfo → Except PyError (Nat × Bool)

/-- The effectful shape of every store operation: state survives a raise. -/
abbrev M (α : Type) := World → Except PyError α × World

/- ---------------------------------------------------------------------
   Small stdlib helpers (`os.path` and friends).
   --------------------------------------------------------------------- -/

/-- Membership test on a list of strings (`in` on a Python list/set). -/
def strMem (s : String) : List String → Bool
  | [] => false
  | x :: rest => if x = s then true else strMem s rest

/-- First value stored under a key in an association list. -/
def assocFind {α : Type} (k : String) : List (String × α) → Option α
  | [] => none
  | kv :: rest => if kv.1 = k then some kv.2 else assocFind k rest

/-- `str.startswith`, computed on the character lists so that concrete
runs reduce inside the kernel. -/
def strStartsWith (s pre : String) : Bool :=
  pre.data.isPrefixOf s.data

/-- `str.endswith`, computed on the character lists. -/
def strEndsWith (s suf : String) : Bool :=
  suf.data.isSuffixOf s.data

/-- Drop the final `n` characters of a string. -/
def strDropRight (s : String) (n : Nat) : String :=
  String.mk (s.data.take (s.data.length - n))

/-- `os.path.join` for two components (POSIX rules for the cases the store
exercises). -/
def os_path_join (a b : String) : String :=
  if strStartsWith b "/" then b
  else if a = "" then b
  else if strEndsWith a "/" then a ++ b
  else a ++ "/" ++ b

/-- `os.path.split(p)[1]`: the final path component. -/
def basename (p : String) : String :=
  (p.splitOn "/").getLastD ""

/-- `os.path.splitext(p)[0]`: the path with its final extension removed. -/
def splitext_root (p : String) : String :=
  let parts := p.splitOn "."
  if parts.length ≤ 1 then p else String.intercalate "." parts.dropLast

/-- `os.path.isabs`. -/
def os_path_isabs (p : String) : Bool :=
  strStartsWith p "/"

/-- `os.path.normpath`; the store only normalizes already-clean joined
paths, so collapsing of `.` and `..` segments is not modelled. -/
def os_path_normpath (p : String) : String := p

/-- The `file_name[-1] in ('c', 'o')` dance of `_get_source_code_info`:
drop a trailing `c`/`o` so a compiled artifact name maps to its source. -/
def source_file_of (file_name : String) : String :=
  if strEndsWith file_name "c" || strEndsWith file_name "o" then strDropRight file_name 1
  else file_name

/-- Modelled from the spec: `zato.common.util.is_python_file` (not under
`src/`): an item with a recognized Python source suffix (the code comment
says ".. a .py/.pyw"). -/
def is_python_file (name : String) : Bool :=
  strEndsWith name ".py" || strEndsWith name ".pyw"

/-- A lowercase hexadecimal digit, the alphabet of `uuid4().hex`. -/
def hexDigit (c : Char) : Bool :=
  c.isDigit || (Char.ofNat 97 ≤ c && c ≤ Char.ofNat 102)

/- ---------------------------------------------------------------------
   Filesystem and library primitives used by the store.
   --------------------------------------------------------------------- -/

/-- `os.path.exists`. -/
def fs_exists (fs : FS) (p : String) : Bool :=
  (assocFind p fs.files).isSome || strMem p fs.dirs

/-- `open(p, 'rb').read()`: `IOError` when the file is absent or marked
unreadable. -/
def openRead (fs : FS) (p : String) : Except PyError Bytes :=
  if strMem p fs.unreadable then .error .ioError
  else match assocFind p fs.files with
    | some bs => .ok bs
    | none => .error .ioError

/-- `os.makedirs`: raises `OSError` when the leaf directory already
exists, otherwise creates it (intermediate components that already exist
are tolerated by Python and need no extra modelling here). -/
def os_makedirs (p : String) : M Unit := fun w =>
  if strMem p w.fs.dirs then (.error .osError, w)
  else (.ok (), { w with fs := { w.fs with dirs := p :: w.fs.dirs } })

/-- `os.path.getmtime`: `OSError` when the path cannot be stat-ed. -/
def os_path_getmtime (p : String) : M Nat := fun w =>
  match assocFind p w.fs.mtimes with
  | some t => (.ok t, w)
  | none => (.error .osError, w)

/-- The filesystem after the compiled-bytecode removal loop of
`import_services_from_file`: `file_name + 'c'` and `file_name + 'o'` are
gone from the file table. -/
def rmcFS (fs : FS) (file_name : String) : FS :=
  { fs with files := fs.files.filter fun kv =>
      ¬(kv.1 = file_name ++ "c" ∨ kv.1 = file_name ++ "o") }

/-- The compiled-bytecode removal loop of `import_services_from_file`:
for each of the suffixes `c` and `o`, remove `file_name + suffix` when it
exists (check-then-remove is a plain filter on the file table). -/
def remove_compiled (file_name : String) : M Unit := fun w =>
  (.ok (), { w with fs := rmcFS w.fs file_name })

/-- `imp.load_source(mod_name, file_name)`: loader errors (syntax errors,
missing dependencies) raise; a successful load yields a module whose
`__file__` is the given path. -/
def imp_load_source (env : Env) (file_name : String) : M PyModule := fun w =>
  match assocFind file_name env.modulesByFile with
  | some m => (.ok { m with modFile := file_name }, w)
  | none => (.error .importError, w)

/-- `importlib.import_module`. -/
def importlib_import_module (env : Env) (mod_name : String) : M PyModule := fun w =>
  match assocFind mod_name env.modulesByName with
  | some m => (.ok m, w)
  | none => (.error .importError, w)

/-- `inspect.getfile`. -/
def inspect_getfile (mod : PyModule) : String := mod.modFile

/-- `inspect.getsourcefile`: the source (never compiled) sibling of the
module file. -/
def inspect_getsourcefile (mod : PyModule) : String :=
  source_file_of mod.modFile

/-- Modelled from the spec: `zato.common.util.decompress` (not under
`src/`): decompresses the full contents of the archive into the given
directory. -/
def util_decompress (env : Env) (archive dir_name : String) : M Unit := fun w =>
  (.ok (), { w with fs := { w.fs with
    files := (env.archive_entries archive).map
      (fun e => (os_path_join dir_name e.1, e.2)) ++ w.fs.files } })

/-- `self.odb.add_service(...)`: the durable-store callback; a successful
call is recorded in the call log together with its arguments. -/
def odb_add_service (env : Env) (name impl_name : String) (is_internal : Bool)
    (timestamp deployment_data : String) (si : SourceInfo) : M (Nat × Bool) := fun w =>
  match env.add_service name impl_name is_internal timestamp deployment_data si with
  | .error e => (.error e, w)
  | .ok r => (.ok r, { w with odbCalls := w.odbCalls ++
      [{ name := name, impl_name := impl_name, is_internal := is_internal,
         timestamp := timestamp, deployment_data := deployment_data, source_info := si }] })

/- ---------------------------------------------------------------------
   The in-memory registry `self.services` (a Python dict).
   --------------------------------------------------------------------- -/

/-- `self.services[k] = v`: overwrite in place, append when absent. -/
def setService (k : String) (v : ServiceRecord) :
    List (String × ServiceRecord) → List (String × ServiceRecord)
  | [] => [(k, v)]
  | kv :: rest => if kv.1 = k then (k, v) :: rest else kv :: setService k v rest

/-- `self.services[k]['is_active'] = b`: mutate one key of the stored dict. -/
def set_is_active (k : String) (b : Bool) :
    List (String × ServiceRecord) → List (String × ServiceRecord)
  | [] => []
  | kv :: rest =>
    if kv.1 = k then (kv.1, { kv.2 with is_active := some b }) :: rest
    else kv :: set_is_active k b rest

/-- `self.services[k]` as a total lookup. -/
def lookupService (k : String) : List (String × ServiceRecord) → Option ServiceRecord
  | [] => none
  | kv :: rest => if kv.1 = k then some kv.2 else lookupService k rest

/-- The keys of the registry, in storage order. -/
def keysOf (l : List (String × ServiceRecord)) : List String :=
  l.map Prod.fst

/- ---------------------------------------------------------------------
   Naming helpers.
   --------------------------------------------------------------------- -/

/-- `get_service_name` (module level in store.py): the `name` attribute
when given explicitly, else `'%s.%s' % (__module__, __name__)`. -/
def get_service_name (c : ServiceClass) : String :=
  match c.nameAttr with
  | some n => n
  | none => c.modName ++ "." ++ c.clsName

/-- Modelled from the spec: `Service.get_impl_name` (not under `src/`): the
stable identity key, the owning-unit-qualified class name. -/
def get_impl_name (c : ServiceClass) : String :=
  c.modName ++ "." ++ c.clsName

/-- Modelled from the spec: `Service.get_name` (not under `src/`): the
declared service name, falling back to the qualified name — the same
convention `get_service_name` in store.py spells out. -/
def get_name (c : ServiceClass) : String :=
  get_service_name c

/-- Modelled from the spec: `zato.common.util.deployment_info` (not under
`src/`): the human-readable deployment record built from the deploying
method, the object, the UTC timestamp and the filesystem location. -/
def deployment_info (method : String) (objectName : String)
    (timestamp : String) (fs_location : String) : String :=
  "method=" ++ method ++ ";object=" ++ objectName ++ ";timestamp=" ++ timestamp
    ++ ";fs_location=" ++ fs_location

/-- `anyjson.dumps` applied to a `str(...)` value: JSON string quoting
(escaping of special characters is not exercised by the store). -/
def dumps (s : String) : String :=
  "\"" ++ s ++ "\""

/- ---------------------------------------------------------------------
   ServiceStore methods.
   --------------------------------------------------------------------- -/

/-- How the hook attribute of the object behaves under
`hook = getattr(object_, hook_name); hook()`: the attribute is missing
(`AttributeError`), the call raises, or the call succeeds. -/
inductive HookBehavior where
  | missing
  | raises
  | succeeds
  deriving Repr, DecidableEq

/-- The names visible inside `_invoke_hook`'s except handler: its locals
(`self`, `object_`, `hook_name`, and `hook` once assigned) plus the
module-level globals of store.py.  `service_name` is not among them. -/
def invoke_hook_scope (hook_assigned : Bool) : List String :=
  (if hook_assigned then ["hook"] else []) ++
  ["self", "object_", "hook_name",
   "imp", "inspect", "logging", "os", "datetime", "sha256", "import_module",
   "getmtime", "format_exc", "uuid4", "is_archive_file", "dumps", "Dumper",
   "InitializingObject", "DONT_DEPLOY_ATTR_NAME", "SourceInfo", "decompress",
   "deployment_info", "fs_safe_now", "is_python_file", "TRACE1",
   "visit_py_source_from_distribution", "Service", "AdminService", "logger",
   "get_service_name", "ServiceStore"]

/-- Evaluating a bare name in a scope: `NameError` when it is not bound. -/
def evalName (scope : List String) (n : String) : Except PyError Unit :=
  if strMem n scope then .ok () else .error (.nameError n)

/-- `ServiceStore._invoke_hook`: the try block runs
`hook = getattr(object_, hook_name); hook()`; the `except Exception`
handler formats a message that refers to the bare name `service_name`
before logging it. -/
def ServiceStore._invoke_hook (behavior : HookBehavior) (hook_name : String) :
    Except PyError Unit :=
  let body : Except PyError Unit :=
    match behavior with
    | .missing => .error .attributeError
    | .raises => .error .exception
    | .succeeds => .ok ()
  match body with
  | .ok _ => .ok ()
  | .error _ =>
    -- msg = '...' % (hook_name, service_name, format_exc()); logger.error(msg)
    match evalName (invoke_hook_scope (behavior ≠ .missing)) "service_name" with
    | .ok _ => .ok ()
    | .error e => .error e

/-- `issubclass(item, Service)`: `TypeError` on a non-class argument. -/
def issubclass_service : PyObject → Except PyError Bool
  | .cls c => .ok c.isServiceSubclass
  | .nonClass => .error .typeError

/-- `ServiceStore._should_deploy`: the nested conformance checks; a
`TypeError` from `issubclass` is caught and logged at TRACE1, and the
method falls through to its implicit `None` (falsy) return. -/
def ServiceStore._should_deploy (name : String) (item : PyObject) :
    Except PyError Bool :=
  match issubclass_service item with
  | .error .typeError => .ok false
  | .error e => .error e
  | .ok isSub =>
    .ok (if isSub then
           match item with
           | .cls c =>
             if ¬c.isAdminServiceBase ∧ ¬c.isServiceBase then
               if ¬c.hasDontDeploy then true else false
             else false
           | .nonClass => false
         else false)

/-- The pure content of `_get_source_code_info`: read the source sibling of
the module file; on success record bytes, path, SHA-256 hex digest and the
algorithm name; an `IOError` is caught and logged at TRACE1 and leaves the
fresh `SourceInfo` untouched. -/
def source_code_info (env : Env) (fs : FS) (mod : PyModule) : SourceInfo :=
  match openRead fs (source_file_of mod.modFile) with
  | .error _ => {}
  | .ok bytes =>
    { source := some bytes
      path := some (inspect_getsourcefile mod)
      hash := some (env.sha256_hexdigest bytes)
      hash_method := some "SHA-256" }

/-- `ServiceStore._get_source_code_info`: never raises and never touches
the world. -/
def ServiceStore._get_source_code_info (env : Env) (mod : PyModule) : M SourceInfo :=
  fun w => (.ok (source_code_info env w.fs mod), w)

/-- The body of `_visit_module`'s loop for one attribute that passed
`_should_deploy`: write the registry entry (dict created empty, then its
`deployment_info` and `service_class` keys), capture provenance, read the
file's mtime, call the ODB, then set the entry's `is_active` key. -/
def ServiceStore.deploy_item (env : Env) (mod : PyModule) (is_internal : Bool)
    (fs_location : String) (c : ServiceClass) : M Unit := fun w =>
  let timestamp := env.utcnow_iso
  let depl_info := deployment_info "ServiceStore" c.clsName timestamp fs_location
  let class_name := get_impl_name c
  let entry : ServiceRecord :=
    { deployment_info := some depl_info, service_class := some c, is_active := none }
  let w1 := { w with services := setService class_name entry w.services }
  match ServiceStore._get_source_code_info env mod w1 with
  | (.error e, w2) => (.error e, w2)
  | (.ok si, w2) =>
    match os_path_getmtime mod.modFile w2 with
    | (.error e, w3) => (.error e, w3)
    | (.ok _last_mod, w3) =>
      match odb_add_service env (get_name c) class_name is_internal timestamp
          (dumps depl_info) si w3 with
      | (.error e, w4) => (.error e, w4)
      | (.ok (_service_id, is_active), w4) =>
        (.ok (), { w4 with services := set_is_active class_name is_active w4.services })

/-- The `for name in dir(mod)` loop of `_visit_module`. -/
def ServiceStore.visit_attrs (env : Env) (mod : PyModule) (is_internal : Bool)
    (fs_location : String) : List (String × PyObject) → M Unit
  | [] => fun w => (.ok (), w)
  | (name, item) :: rest => fun w =>
    match ServiceStore._should_deploy name item with
    | .error e => (.error e, w)
    | .ok b =>
      let step : Except PyError Unit × World :=
        if b then
          match item with
          | .cls c => ServiceStore.deploy_item env mod is_internal fs_location c w
          | .nonClass => (.ok (), w)
        else (.ok (), w)
      match step with
      | (.error e, w1) => (.error e, w1)
      | (.ok _, w1) => ServiceStore.visit_attrs env mod is_internal fs_location rest w1

/-- `ServiceStore._visit_module`. -/
def ServiceStore._visit_module (env : Env) (mod : PyModule) (is_internal : Bool)
    (fs_location : String) : M Unit :=
  ServiceStore.visit_attrs env mod is_internal fs_location mod.attrs

/-- `ServiceStore.import_services_from_file`: resolve a relative path
against `base_dir` (`TypeError` when `base_dir` is `None`), raise
`ValueError` when the path does not exist, drop stale compiled siblings,
load the source, and visit the loaded module. -/
def ServiceStore.import_services_from_file (env : Env) (file_name : String)
    (is_internal : Bool) (base_dir : Option String) : M Unit := fun w =>
  let resolved : Except PyError String :=
    if os_path_isabs file_name then .ok file_name
    else match base_dir with
      | some b => .ok (os_path_normpath (os_path_join b file_name))
      | none => .error .typeError
  match resolved with
  | .error e => (.error e, w)
  | .ok fn =>
    if fs_exists w.fs fn then
      match remove_compiled fn w with
      | (.error e, w1) => (.error e, w1)
      | (.ok _, w1) =>
        match imp_load_source env fn w1 with
        | (.error e, w2) => (.error e, w2)
        | (.ok mod, w2) => ServiceStore._visit_module env mod is_internal fn w2
    else
      (.error (.valueError ("Could not import services, path:[" ++ fn
        ++ "] does not exist")), w)

/-- The iteration of `import_services_from_directory` over the source
files of the distribution. -/
def ServiceStore.import_files_list (env : Env) : List String → M Unit
  | [] => fun w => (.ok (), w)
  | p :: rest => fun w =>
    match ServiceStore.import_services_from_file env p false none w with
    | (.error e, w1) => (.error e, w1)
    | (.ok _, w1) => ServiceStore.import_files_list env rest w1

/-- `ServiceStore.import_services_from_directory`: every source file the
distribution manifest points to is imported with `is_internal = False` and
`base_dir = None`. -/
def ServiceStore.import_services_from_directory (env : Env) (dir_name : String) : M Unit :=
  ServiceStore.import_files_list env (env.pyDistFiles dir_name)

/-- `ServiceStore.import_services_from_module`. -/
def ServiceStore.import_services_from_module (env : Env) (mod_name : String)
    (is_internal : Bool) : M Unit := fun w =>
  match importlib_import_module env mod_name w with
  | (.error e, w1) => (.error e, w1)
  | (.ok mod, w1) =>
    ServiceStore._visit_module env mod is_internal (inspect_getfile mod) w1

/-- The directory name `ServiceStore.decompress` synthesizes:
`os.path.join(work_dir, '{fs_safe_now()}-{uuid4().hex[:6]}', basename)`. -/
def decompress_dir_name (env : Env) (archive work_dir : String) : String :=
  os_path_join
    (os_path_join work_dir (env.fs_safe_now ++ "-" ++ String.mk (env.uuid4_hex.take 6)))
    (basename archive)

/-- `ServiceStore.decompress`: make the fresh scratch directory (raising
when it already exists), unpack the archive into it, and return its name. -/
def ServiceStore.decompress (env : Env) (archive work_dir : String) : M String := fun w =>
  let dir_name := decompress_dir_name env archive work_dir
  match os_makedirs dir_name w with
  | (.error e, w1) => (.error e, w1)
  | (.ok _, w1) =>
    match util_decompress env archive dir_name w1 with
    | (.error e, w2) => (.error e, w2)
    | (.ok _, w2) => (.ok dir_name, w2)

/-- The body of `import_services_from_anywhere`'s loop for one item: the
`if/elif` dispatch exactly as written in the source. -/
def ServiceStore.import_one (env : Env) (item_name base_dir work_dir : String) :
    M Unit := fun w =>
  let is_internal := strStartsWith item_name "zato"
  if env.is_archive_file item_name then
    match ServiceStore.decompress env item_name work_dir w with
    | (.error e, w1) => (.error e, w1)
    | (.ok new_path, w1) => ServiceStore.import_services_from_directory env new_path w1
  else if strMem item_name w.fs.dirs then
    ServiceStore.import_services_from_directory env item_name w
  else if is_python_file item_name then
    ServiceStore.import_services_from_file env item_name is_internal (some base_dir) w
  else
    ServiceStore.import_services_from_module env item_name is_internal w

/-- `ServiceStore.import_services_from_anywhere`: the `for item_name in
items` loop; there is no exception handling around the loop body. -/
def ServiceStore.import_services_from_anywhere (env : Env) (items : List String)
    (base_dir work_dir : String) : M Unit :=
  match items with
  | [] => fun w => (.ok (), w)
  | item :: rest => fun w =>
    match ServiceStore.import_one env item base_dir work_dir w with
    | (.error e, w1) => (.error e, w1)
    | (.ok _, w1) =>
      ServiceStore.import_services_from_anywhere env rest base_dir work_dir w1

/- ---------------------------------------------------------------------
   Pure models of the effectful pipeline, used to state the claims.
   --------------------------------------------------------------------- -/

/-- The four input shapes of `import_services_from_anywhere`. -/
inductive Shape where
  | archive
  | directory
  | pythonFile
  | moduleName
  deriving Repr, DecidableEq

/-- Defined from the wording of the spec: the dispatch on an item picks the
first matching shape, in the fixed order archive, existing directory, file
with a recognized Python source suffix, importable module name. -/
def dispatch_shape (env : Env) (fs : FS) (item : String) : Shape :=
  if env.is_archive_file item then .archive
  else if strMem item fs.dirs then .directory
  else if is_python_file item then .pythonFile
  else .moduleName

/-- The boolean content of `_should_deploy` on a class object. -/
def deployFlag (c : ServiceClass) : Bool :=
  c.isServiceSubclass && !c.isAdminServiceBase && !c.isServiceBase && !c.hasDontDeploy

/-- The `is_active` value a successful `odb.add_service` call returns for
the given arguments (`false` is a placeholder never used on the error
side, which the success hypotheses rule out). -/
def okActive (env : Env) (n k : String) (b : Bool) (t d : String) (s : SourceInfo) : Bool :=
  match env.add_service n k b t d s with
  | .ok r => r.2
  | .error _ => false

/-- The registry entry a completed deployment of class `c` leaves behind. -/
def deployed_record (env : Env) (fs : FS) (mod : PyModule) (is_internal : Bool)
    (fs_location : String) (c : ServiceClass) : ServiceRecord :=
  let t := env.utcnow_iso
  let d := deployment_info "ServiceStore" c.clsName t fs_location
  { deployment_info := some d
    service_class := some c
    is_active := some (okActive env (get_name c) (get_impl_name c) is_internal t
      (dumps d) (source_code_info env fs mod)) }

/-- The pure effect of `_visit_module` on the registry when every
deployment succeeds: one overwriting insert per deployable attribute. -/
def visit_fold (env : Env) (fs : FS) (mod : PyModule) (is_internal : Bool)
    (fs_location : String) :
    List (String × PyObject) → List (String × ServiceRecord) → List (String × ServiceRecord)
  | [], svcs => svcs
  | (_, .nonClass) :: rest, svcs => visit_fold env fs mod is_internal fs_location rest svcs
  | (_, .cls c) :: rest, svcs =>
    visit_fold env fs mod is_internal fs_location rest
      (if deployFlag c then
        setService (get_impl_name c) (deployed_record env fs mod is_internal fs_location c) svcs
      else svcs)

/-- The identity keys of the deployable attributes of a module, in visit
order. -/
def deployable_names : List (String × PyObject) → List String
  | [] => []
  | (_, .nonClass) :: rest => deployable_names rest
  | (_, .cls c) :: rest =>
    if deployFlag c then get_impl_name c :: deployable_names rest
    else deployable_names rest

/-- The durable-store callback succeeds on every argument tuple. -/
def odb_always_ok (env : Env) : Prop :=
  ∀ n k b t d s, ∃ r, env.add_service n k b t d s = .ok r

/- ---------------------------------------------------------------------
   Registry lemmas.
   --------------------------------------------------------------------- -/

theorem should_deploy_cls (name : String) (c : ServiceClass) :
    ServiceStore._should_deploy name (.cls c) = .ok (deployFlag c) := by
  obtain ⟨mn, cn, na, sub, sb, ab, dd⟩ := c
  cases sub <;> cases sb <;> cases ab <;> cases dd <;>
    simp [ServiceStore._should_deploy, issubclass_service, deployFlag]

theorem should_deploy_nonClass (name : String) :
    ServiceStore._should_deploy name .nonClass = .ok false := rfl

theorem lookupService_setService_self (k : String) (v : ServiceRecord)
    (l : List (String × ServiceRecord)) :
    lookupService k (setService k v l) = some v := by
  induction l with
  | nil => simp [setService, lookupService]
  | cons kv rest ih =>
    by_cases h : kv.1 = k
    · simp [setService, lookupService, h]
    · simp [setService, lookupService, h, ih]

theorem keysOf_nil : keysOf [] = [] := rfl

theorem keysOf_cons (kv : String × ServiceRecord) (l : List (String × ServiceRecord)) :
    keysOf (kv :: l) = kv.1 :: keysOf l := rfl

theorem lookupService_setService_ne (k k' : String) (v : ServiceRecord)
    (l : List (String × ServiceRecord)) (h : k ≠ k') :
    lookupService k (setService k' v l) = lookupService k l := by
  induction l with
  | nil => simp [setService, lookupService, Ne.symm h]
  | cons kv rest ih =>
    by_cases h1 : kv.1 = k'
    · simp [setService, lookupService, h1, Ne.symm h, h]
    · by_cases h2 : kv.1 = k
      · simp [setService, lookupService, h1, h2, h]
      · simp [setService, lookupService, h1, h2, ih]

theorem keysOf_setService (k : String) (v : ServiceRecord)
    (l : List (String × ServiceRecord)) :
    keysOf (setService k v l) =
      if k ∈ keysOf l then keysOf l else keysOf l ++ [k] := by
  induction l with
  | nil => simp [setService, keysOf]
  | cons kv rest ih =>
    have hset : setService k v (kv :: rest) =
        if kv.1 = k then (k, v) :: rest else kv :: setService k v rest := rfl
    by_cases h : kv.1 = k
    · rw [hset, if_pos h, keysOf_cons, keysOf_cons]
      simp [h]
    · have hne : ¬(k = kv.1) := fun hh => h hh.symm
      rw [hset, if_neg h, keysOf_cons, keysOf_cons, ih]
      by_cases h2 : k ∈ keysOf rest
      · simp [h2, hne]
      · simp [h2, hne]

theorem keysOf_set_is_active (k : String) (b : Bool)
    (l : List (String × ServiceRecord)) :
    keysOf (set_is_active k b l) = keysOf l := by
  induction l with
  | nil => rfl
  | cons kv rest ih =>
    have hset : set_is_active k b (kv :: rest) =
        if kv.1 = k then (kv.1, { kv.2 with is_active := some b }) :: rest
        else kv :: set_is_active k b rest := rfl
    by_cases h : kv.1 = k
    · rw [hset, if_pos h, keysOf_cons, keysOf_cons]
    · rw [hset, if_neg h, keysOf_cons, keysOf_cons, ih]

theorem mem_keysOf_setService (k : String) (v : ServiceRecord)
    (l : List (String × ServiceRecord)) :
    k ∈ keysOf (setService k v l) := by
  rw [keysOf_setService]
  by_cases h : k ∈ keysOf l
  · simp [h]
  · simp [h]

theorem keysOf_setService_nodup (k : String) (v : ServiceRecord)
    (l : List (String × ServiceRecord)) (h : (keysOf l).Nodup) :
    (keysOf (setService k v l)).Nodup := by
  rw [keysOf_setService]
  by_cases hm : k ∈ keysOf l
  · simpa [hm]
  · simp only [hm, if_false]
    exact List.Nodup.append h (List.nodup_singleton k)
      (by simpa [List.disjoint_singleton] using hm)

theorem set_is_active_setService (k : String) (b : Bool) (v : ServiceRecord)
    (l : List (String × ServiceRecord)) :
    set_is_active k b (setService k v l) =
      setService k { v with is_active := some b } l := by
  induction l with
  | nil => simp [setService, set_is_active]
  | cons kv rest ih =>
    by_cases h : kv.1 = k
    · simp [setService, set_is_active, h]
    · simp [setService, set_is_active, h, ih]

/- ---------------------------------------------------------------------
   Lemmas about the pure registry fold.
   --------------------------------------------------------------------- -/

theorem visit_fold_nil (env : Env) (fs : FS) (mod : PyModule) (b : Bool) (loc : String)
    (svcs : List (String × ServiceRecord)) :
    visit_fold env fs mod b loc [] svcs = svcs := rfl

theorem visit_fold_cons_nonClass (env : Env) (fs : FS) (mod : PyModule) (b : Bool)
    (loc n : String) (rest : List (String × PyObject)) (svcs : List (String × ServiceRecord)) :
    visit_fold env fs mod b loc ((n, .nonClass) :: rest) svcs =
      visit_fold env fs mod b loc rest svcs := rfl

theorem visit_fold_cons_cls (env : Env) (fs : FS) (mod : PyModule) (b : Bool)
    (loc n : String) (c : ServiceClass) (rest : List (String × PyObject))
    (svcs : List (String × ServiceRecord)) :
    visit_fold env fs mod b loc ((n, .cls c) :: rest) svcs =
      visit_fold env fs mod b loc rest
        (if deployFlag c then
          setService (get_impl_name c) (deployed_record env fs mod b loc c) svcs
        else svcs) := rfl

theorem deployable_names_cons_nonClass (n : String) (rest : List (String × PyObject)) :
    deployable_names ((n, .nonClass) :: rest) = deployable_names rest := rfl

theorem deployable_names_cons_cls (n : String) (c : ServiceClass)
    (rest : List (String × PyObject)) :
    deployable_names ((n, .cls c) :: rest) =
      if deployFlag c then get_impl_name c :: deployable_names rest
      else deployable_names rest := rfl

theorem mem_deployable_names (attrs : List (String × PyObject)) (name : String)
    (c : ServiceClass) (hmem : (name, .cls c) ∈ attrs) (hflag : deployFlag c = true) :
    get_impl_name c ∈ deployable_names attrs := by
  induction attrs with
  | nil => cases hmem
  | cons hd rest ih =>
    obtain ⟨n, item⟩ := hd
    rcases List.mem_cons.mp hmem with heq | hmem2
    · cases heq
      simp [deployable_names_cons_cls, hflag]
    · cases item with
      | nonClass => exact ih hmem2
      | cls c2 =>
        rw [deployable_names_cons_cls]
        by_cases hf2 : deployFlag c2
        · simp [hf2, ih hmem2]
        · simp [hf2, ih hmem2]

theorem lookupService_visit_fold_not_mem (env : Env) (fs : FS) (mod : PyModule)
    (b : Bool) (loc k : String) :
    ∀ (attrs : List (String × PyObject)) (svcs : List (String × ServiceRecord)),
      k ∉ deployable_names attrs →
      lookupService k (visit_fold env fs mod b loc attrs svcs) = lookupService k svcs := by
  intro attrs
  induction attrs with
  | nil => intro svcs h; rfl
  | cons hd rest ih =>
    obtain ⟨n, item⟩ := hd
    intro svcs h
    cases item with
    | nonClass => exact ih svcs h
    | cls c =>
      rw [visit_fold_cons_cls]
      by_cases hf : deployFlag c
      · rw [deployable_names_cons_cls, if_pos hf] at h
        have hk : k ≠ get_impl_name c := by
          intro he
          exact h (he ▸ List.mem_cons_self _ _)
        have hrest : k ∉ deployable_names rest := fun hm => h (List.mem_cons_of_mem _ hm)
        rw [if_pos hf, ih _ hrest, lookupService_setService_ne _ _ _ _ hk]
      · rw [deployable_names_cons_cls, if_neg hf] at h
        rw [if_neg hf, ih svcs h]

theorem lookupService_visit_fold_mem (env : Env) (fs : FS) (mod : PyModule)
    (b : Bool) (loc : String) :
    ∀ (attrs : List (String × PyObject)) (svcs : List (String × ServiceRecord))
      (name : String) (c : ServiceClass),
      (deployable_names attrs).Nodup →
      (name, .cls c) ∈ attrs → deployFlag c = true →
      lookupService (get_impl_name c) (visit_fold env fs mod b loc attrs svcs) =
        some (deployed_record env fs mod b loc c) := by
  intro attrs
  induction attrs with
  | nil => intro svcs name c hnd hmem hf; cases hmem
  | cons hd rest ih =>
    obtain ⟨n, item⟩ := hd
    intro svcs name c hnd hmem hf
    rcases List.mem_cons.mp hmem with heq | hmem2
    · cases heq
      rw [visit_fold_cons_cls, if_pos hf]
      have hnotin : get_impl_name c ∉ deployable_names rest := by
        rw [deployable_names_cons_cls, if_pos hf] at hnd
        exact (List.nodup_cons.mp hnd).1
      rw [lookupService_visit_fold_not_mem env fs mod b loc _ rest _ hnotin]
      exact lookupService_setService_self _ _ _
    · cases item with
      | nonClass =>
        rw [visit_fold_cons_nonClass]
        exact ih svcs name c hnd hmem2 hf
      | cls c2 =>
        rw [visit_fold_cons_cls]
        by_cases hf2 : deployFlag c2
        · rw [if_pos hf2]
          have hnd' : (deployable_names rest).Nodup := by
            rw [deployable_names_cons_cls, if_pos hf2] at hnd
            exact (List.nodup_cons.mp hnd).2
          exact ih _ name c hnd' hmem2 hf
        · rw [if_neg hf2]
          rw [deployable_names_cons_cls, if_neg hf2] at hnd
          exact ih svcs name c hnd hmem2 hf

theorem keysOf_visit_fold_nodup (env : Env) (fs : FS) (mod : PyModule)
    (b : Bool) (loc : String) :
    ∀ (attrs : List (String × PyObject)) (svcs : List (String × ServiceRecord)),
      (keysOf svcs).Nodup → (keysOf (visit_fold env fs mod b loc attrs svcs)).Nodup := by
  intro attrs
  induction attrs with
  | nil => intro svcs h; exact h
  | cons hd rest ih =>
    obtain ⟨n, item⟩ := hd
    intro svcs h
    cases item with
    | nonClass => exact ih svcs h
    | cls c =>
      rw [visit_fold_cons_cls]
      by_cases hf : deployFlag c
      · rw [if_pos hf]
        exact ih _ (keysOf_setService_nodup _ _ _ h)
      · rw [if_neg hf]
        exact ih svcs h

theorem mem_keysOf_setService_of_mem (k k' : String) (v : ServiceRecord)
    (l : List (String × ServiceRecord)) (h : k ∈ keysOf l) :
    k ∈ keysOf (setService k' v l) := by
  rw [keysOf_setService]
  by_cases hm : k' ∈ keysOf l
  · simpa [hm] using h
  · simp only [hm, if_false]
    exact List.mem_append_left _ h

theorem mem_keysOf_visit_fold (env : Env) (fs : FS) (mod : PyModule)
    (b : Bool) (loc : String) :
    ∀ (attrs : List (String × PyObject)) (svcs : List (String × ServiceRecord)) (k : String),
      k ∈ keysOf svcs → k ∈ keysOf (visit_fold env fs mod b loc attrs svcs) := by
  intro attrs
  induction attrs with
  | nil => intro svcs k h; exact h
  | cons hd rest ih =>
    obtain ⟨n, item⟩ := hd
    intro svcs k h
    cases item with
    | nonClass => exact ih svcs k h
    | cls c =>
      rw [visit_fold_cons_cls]
      by_cases hf : deployFlag c
      · rw [if_pos hf]
        exact ih _ k (mem_keysOf_setService_of_mem _ _ _ _ h)
      · rw [if_neg hf]
        exact ih svcs k h

theorem deployable_names_subset_keysOf_visit_fold (env : Env) (fs : FS) (mod : PyModule)
    (b : Bool) (loc : String) :
    ∀ (attrs : List (String × PyObject)) (svcs : List (String × ServiceRecord)) (k : String),
      k ∈ deployable_names attrs → k ∈ keysOf (visit_fold env fs mod b loc attrs svcs) := by
  intro attrs
  induction attrs with
  | nil => intro svcs k h; cases h
  | cons hd rest ih =>
    obtain ⟨n, item⟩ := hd
    intro svcs k h
    cases item with
    | nonClass => exact ih svcs k h
    | cls c =>
      rw [visit_fold_cons_cls]
      by_cases hf : deployFlag c
      · rw [deployable_names_cons_cls, if_pos hf] at h
        rw [if_pos hf]
        rcases List.mem_cons.mp h with heq | hmem
        · subst heq
          exact mem_keysOf_visit_fold env fs mod b loc rest _ _
            (mem_keysOf_setService _ _ _)
        · exact ih _ k hmem
      · rw [deployable_names_cons_cls, if_neg hf] at h
        rw [if_neg hf]
        exact ih svcs k h

theorem keysOf_visit_fold_of_subset (env : Env) (fs : FS) (mod : PyModule)
    (b : Bool) (loc : String) :
    ∀ (attrs : List (String × PyObject)) (svcs : List (String × ServiceRecord)),
      (∀ k ∈ deployable_names attrs, k ∈ keysOf svcs) →
      keysOf (visit_fold env fs mod b loc attrs svcs) = keysOf svcs := by
  intro attrs
  induction attrs with
  | nil => intro svcs h; rfl
  | cons hd rest ih =>
    obtain ⟨n, item⟩ := hd
    intro svcs h
    cases item with
    | nonClass => exact ih svcs h
    | cls c =>
      rw [visit_fold_cons_cls]
      by_cases hf : deployFlag c
      · rw [if_pos hf]
        have hkc : get_impl_name c ∈ keysOf svcs := by
          apply h
          rw [deployable_names_cons_cls, if_pos hf]
          exact List.mem_cons_self _ _
        have hkeys : keysOf (setService (get_impl_name c)
            (deployed_record env fs mod b loc c) svcs) = keysOf svcs := by
          rw [keysOf_setService, if_pos hkc]
        rw [ih _ ?_, hkeys]
        intro k hk
        rw [hkeys]
        apply h
        rw [deployable_names_cons_cls, if_pos hf]
        exact List.mem_cons_of_mem _ hk
      · rw [if_neg hf]
        apply ih
        intro k hk
        apply h
        rw [deployable_names_cons_cls, if_neg hf]
        exact hk

/- ---------------------------------------------------------------------
   Simulation lemmas: the effectful pipeline against the pure fold.
   --------------------------------------------------------------------- -/

theorem deploy_item_run (env : Env) (mod : PyModule) (b : Bool) (loc : String)
    (c : ServiceClass) (w : World) (t : Nat)
    (hmt : assocFind mod.modFile w.fs.mtimes = some t)
    (hodb : odb_always_ok env) :
    ∃ call, ServiceStore.deploy_item env mod b loc c w =
      (.ok (), { fs := w.fs
                 services := setService (get_impl_name c)
                   (deployed_record env w.fs mod b loc c) w.services
                 odbCalls := w.odbCalls ++ [call] }) := by
  obtain ⟨r, hr⟩ := hodb (get_name c) (get_impl_name c) b env.utcnow_iso
    (dumps (deployment_info "ServiceStore" c.clsName env.utcnow_iso loc))
    (source_code_info env w.fs mod)
  refine ⟨{ name := get_name c, impl_name := get_impl_name c, is_internal := b,
            timestamp := env.utcnow_iso,
            deployment_data := dumps (deployment_info "ServiceStore" c.clsName env.utcnow_iso loc),
            source_info := source_code_info env w.fs mod }, ?_⟩
  unfold ServiceStore.deploy_item ServiceStore._get_source_code_info os_path_getmtime
    odb_add_service
  simp only [hmt, hr, set_is_active_setService]
  simp [deployed_record, okActive, hr]

theorem visit_attrs_cons_cls (env : Env) (mod : PyModule) (b : Bool) (loc n : String)
    (c : ServiceClass) (rest : List (String × PyObject)) (w : World) :
    ServiceStore.visit_attrs env mod b loc ((n, .cls c) :: rest) w =
      if deployFlag c then
        match ServiceStore.deploy_item env mod b loc c w with
        | (.error e, w1) => (.error e, w1)
        | (.ok _, w1) => ServiceStore.visit_attrs env mod b loc rest w1
      else ServiceStore.visit_attrs env mod b loc rest w := by
  cases hf : deployFlag c
  · simp [ServiceStore.visit_attrs, should_deploy_cls, hf]
  · simp [ServiceStore.visit_attrs, should_deploy_cls, hf]

theorem visit_attrs_cons_nonClass (env : Env) (mod : PyModule) (b : Bool) (loc n : String)
    (rest : List (String × PyObject)) (w : World) :
    ServiceStore.visit_attrs env mod b loc ((n, .nonClass) :: rest) w =
      ServiceStore.visit_attrs env mod b loc rest w := rfl

theorem visit_attrs_run (env : Env) (mod : PyModule) (b : Bool) (loc : String)
    (t : Nat) (hodb : odb_always_ok env) :
    ∀ (attrs : List (String × PyObject)) (w : World),
      assocFind mod.modFile w.fs.mtimes = some t →
      ∃ cs, ServiceStore.visit_attrs env mod b loc attrs w =
        (.ok (), { fs := w.fs
                   services := visit_fold env w.fs mod b loc attrs w.services
                   odbCalls := w.odbCalls ++ cs }) := by
  intro attrs
  induction attrs with
  | nil =>
    intro w hmt
    exact ⟨[], by simp [ServiceStore.visit_attrs, visit_fold_nil]⟩
  | cons hd rest ih =>
    intro w hmt
    obtain ⟨n, item⟩ := hd
    cases item with
    | nonClass =>
      obtain ⟨cs, hcs⟩ := ih w hmt
      exact ⟨cs, by rw [visit_attrs_cons_nonClass, visit_fold_cons_nonClass]; exact hcs⟩
    | cls c =>
      rw [visit_attrs_cons_cls, visit_fold_cons_cls]
      by_cases hf : deployFlag c
      · rw [if_pos hf, if_pos hf]
        obtain ⟨call, hcall⟩ := deploy_item_run env mod b loc c w t hmt hodb
        obtain ⟨cs, hcs⟩ := ih
          { fs := w.fs
            services := setService (get_impl_name c)
              (deployed_record env w.fs mod b loc c) w.services
            odbCalls := w.odbCalls ++ [call] } hmt
        refine ⟨call :: cs, ?_⟩
        rw [hcall]
        dsimp only
        dsimp only at hcs
        rw [hcs]
        simp [List.append_assoc]
      · rw [if_neg hf, if_neg hf]
        exact ih w hmt

theorem assocFind_filter {α : Type} (k : String) (p : String × α → Bool)
    (l : List (String × α)) (hp : ∀ v, p (k, v) = true) :
    assocFind k (l.filter p) = assocFind k l := by
  induction l with
  | nil => rfl
  | cons kv rest ih =>
    by_cases h : kv.1 = k
    · have hh : p kv = true := by
        obtain ⟨k1, v1⟩ := kv
        cases h
        exact hp v1
      simp [List.filter_cons, hh, assocFind, h]
    · cases hp2 : p kv
      · simp [List.filter_cons, hp2, assocFind, h, ih]
      · simp [List.filter_cons, hp2, assocFind, h, ih]

theorem not_self_append_co (fn : String) :
    ¬(fn = fn ++ "c" ∨ fn = fn ++ "o") := by
  have hc : ("c" : String).length = 1 := rfl
  have ho : ("o" : String).length = 1 := rfl
  rintro (h | h)
  · have := congrArg String.length h
    rw [String.length_append, hc] at this
    omega
  · have := congrArg String.length h
    rw [String.length_append, ho] at this
    omega

theorem assocFind_rmcFS_self (fs : FS) (fn : String) :
    assocFind fn (rmcFS fs fn).files = assocFind fn fs.files := by
  apply assocFind_filter
  intro v
  simp [not_self_append_co fn]

theorem fs_exists_rmcFS_self (fs : FS) (fn : String) :
    fs_exists (rmcFS fs fn) fn = fs_exists fs fn := by
  unfold fs_exists
  rw [assocFind_rmcFS_self]
  rfl

theorem rmcFS_idem (fs : FS) (fn : String) : rmcFS (rmcFS fs fn) fn = rmcFS fs fn := by
  unfold rmcFS
  simp [List.filter_filter]

theorem import_file_run (env : Env) (fn : String) (b : Bool) (bd : Option String)
    (w : World) (m : PyModule) (t : Nat)
    (habs : os_path_isabs fn = true)
    (hmod : assocFind fn env.modulesByFile = some m)
    (hex : fs_exists w.fs fn = true)
    (hmt : assocFind fn w.fs.mtimes = some t)
    (hodb : odb_always_ok env) :
    ∃ cs, ServiceStore.import_services_from_file env fn b bd w =
      (.ok (), { fs := rmcFS w.fs fn
                 services := visit_fold env (rmcFS w.fs fn) { m with modFile := fn } b fn
                   m.attrs w.services
                 odbCalls := w.odbCalls ++ cs }) := by
  obtain ⟨cs, hcs⟩ := visit_attrs_run env { m with modFile := fn } b fn t hodb m.attrs
    { w with fs := rmcFS w.fs fn } hmt
  refine ⟨cs, ?_⟩
  unfold ServiceStore.import_services_from_file remove_compiled imp_load_source
  simp only [habs, hex, hmod, if_true]
  exact hcs

/- ---------------------------------------------------------------------
   Which `is_internal` flag reaches the ODB: bookkeeping lemmas.
   --------------------------------------------------------------------- -/

theorem deploy_item_calls (env : Env) (mod : PyModule) (b : Bool) (loc : String)
    (c : ServiceClass) (w : World) :
    ∃ cs, (ServiceStore.deploy_item env mod b loc c w).2.odbCalls = w.odbCalls ++ cs
      ∧ ∀ x ∈ cs, x.is_internal = b := by
  unfold ServiceStore.deploy_item ServiceStore._get_source_code_info os_path_getmtime
    odb_add_service
  cases hm : assocFind mod.modFile w.fs.mtimes with
  | none => exact ⟨[], by simp [hm], by simp⟩
  | some t =>
    cases ha : env.add_service (get_name c) (get_impl_name c) b env.utcnow_iso
        (dumps (deployment_info "ServiceStore" c.clsName env.utcnow_iso loc))
        (source_code_info env w.fs mod) with
    | error e => exact ⟨[], by simp [hm, ha], by simp⟩
    | ok r =>
      refine ⟨[⟨get_name c, get_impl_name c, b, env.utcnow_iso,
        dumps (deployment_info "ServiceStore" c.clsName env.utcnow_iso loc),
        source_code_info env w.fs mod⟩], ?_, ?_⟩
      · simp [hm, ha]
      · simp

theorem visit_attrs_calls (env : Env) (mod : PyModule) (b : Bool) (loc : String) :
    ∀ (attrs : List (String × PyObject)) (w : World),
      ∃ cs, (ServiceStore.visit_attrs env mod b loc attrs w).2.odbCalls = w.odbCalls ++ cs
        ∧ ∀ x ∈ cs, x.is_internal = b := by
  intro attrs
  induction attrs with
  | nil => intro w; exact ⟨[], by simp [ServiceStore.visit_attrs], by simp⟩
  | cons hd rest ih =>
    intro w
    obtain ⟨n, item⟩ := hd
    cases item with
    | nonClass => rw [visit_attrs_cons_nonClass]; exact ih w
    | cls c =>
      rw [visit_attrs_cons_cls]
      by_cases hf : deployFlag c
      · rw [if_pos hf]
        obtain ⟨cs0, h0, f0⟩ := deploy_item_calls env mod b loc c w
        cases hstep : ServiceStore.deploy_item env mod b loc c w with
        | mk r w1 =>
          rw [hstep] at h0
          cases r with
          | error e =>
            refine ⟨cs0, ?_, f0⟩
            simpa using h0
          | ok u =>
            obtain ⟨cs1, h1, f1⟩ := ih w1
            refine ⟨cs0 ++ cs1, ?_, ?_⟩
            · dsimp only
              rw [h1]
              simp only at h0
              rw [h0, List.append_assoc]
            · intro x hx
              rcases List.mem_append.mp hx with h | h
              exacts [f0 x h, f1 x h]
      · rw [if_neg hf]
        exact ih w

theorem import_file_calls (env : Env) (fn : String) (b : Bool) (bd : Option String)
    (w : World) :
    ∃ cs, (ServiceStore.import_services_from_file env fn b bd w).2.odbCalls
        = w.odbCalls ++ cs ∧ ∀ x ∈ cs, x.is_internal = b := by
  have hbody : ∀ (fn2 : String) (w0 : World),
      ∃ cs, (if fs_exists w0.fs fn2 then
        match remove_compiled fn2 w0 with
        | (.error e, w1) => ((.error e : Except PyError Unit), w1)
        | (.ok _, w1) =>
          match imp_load_source env fn2 w1 with
          | (.error e, w2) => (.error e, w2)
          | (.ok mod, w2) => ServiceStore._visit_module env mod b fn2 w2
      else
        (.error (.valueError ("Could not import services, path:[" ++ fn2
          ++ "] does not exist")), w0)).2.odbCalls = w0.odbCalls ++ cs
        ∧ ∀ x ∈ cs, x.is_internal = b := by
    intro fn2 w0
    by_cases hex : fs_exists w0.fs fn2
    · simp only [hex, if_true]
      unfold remove_compiled imp_load_source
      cases hm : assocFind fn2 env.modulesByFile with
      | none => exact ⟨[], by simp [hm], by simp⟩
      | some m =>
        obtain ⟨cs, h, f⟩ := visit_attrs_calls env { m with modFile := fn2 } b fn2
          m.attrs { w0 with fs := rmcFS w0.fs fn2 }
        exact ⟨cs, by simp only [hm]; exact h, f⟩
    · simp only [hex, if_false]
      exact ⟨[], by simp, by simp⟩
  unfold ServiceStore.import_services_from_file
  by_cases habs : os_path_isabs fn
  · simp only [habs, if_true]
    exact hbody fn w
  · cases bd with
    | some bdir =>
      simp only [habs, if_false]
      exact hbody (os_path_normpath (os_path_join bdir fn)) w
    | none =>
      simp only [habs, if_false]
      exact ⟨[], by simp, by simp⟩

theorem import_files_list_calls (env : Env) :
    ∀ (ps : List String) (w : World),
      ∃ cs, (ServiceStore.import_files_list env ps w).2.odbCalls = w.odbCalls ++ cs
        ∧ ∀ x ∈ cs, x.is_internal = false := by
  intro ps
  induction ps with
  | nil => intro w; exact ⟨[], by simp [ServiceStore.import_files_list], by simp⟩
  | cons p rest ih =>
    intro w
    obtain ⟨cs0, h0, f0⟩ := import_file_calls env p false none w
    unfold ServiceStore.import_files_list
    cases hstep : ServiceStore.import_services_from_file env p false none w with
    | mk r w1 =>
      rw [hstep] at h0
      cases r with
      | error e =>
        refine ⟨cs0, ?_, f0⟩
        simpa using h0
      | ok u =>
        obtain ⟨cs1, h1, f1⟩ := ih w1
        refine ⟨cs0 ++ cs1, ?_, ?_⟩
        · dsimp only
          rw [h1]
          simp only at h0
          rw [h0, List.append_assoc]
        · intro x hx
          rcases List.mem_append.mp hx with h | h
          exacts [f0 x h, f1 x h]

theorem import_dir_calls (env : Env) (dir_name : String) (w : World) :
    ∃ cs, (ServiceStore.import_services_from_directory env dir_name w).2.odbCalls
        = w.odbCalls ++ cs ∧ ∀ x ∈ cs, x.is_internal = false :=
  import_files_list_calls env (env.pyDistFiles dir_name) w

theorem import_module_calls (env : Env) (mod_name : String) (b : Bool) (w : World) :
    ∃ cs, (ServiceStore.import_services_from_module env mod_name b w).2.odbCalls
        = w.odbCalls ++ cs ∧ ∀ x ∈ cs, x.is_internal = b := by
  unfold ServiceStore.import_services_from_module importlib_import_module
  cases hm : assocFind mod_name env.modulesByName with
  | none => exact ⟨[], by simp [hm], by simp⟩
  | some m =>
    obtain ⟨cs, h, f⟩ := visit_attrs_calls env m b (inspect_getfile m) m.attrs w
    exact ⟨cs, by simp only [hm]; exact h, f⟩

theorem decompress_odbCalls (env : Env) (archive work_dir : String) (w : World) :
    (ServiceStore.decompress env archive work_dir w).2.odbCalls = w.odbCalls := by
  unfold ServiceStore.decompress os_makedirs util_decompress
  by_cases h : strMem (decompress_dir_name env archive work_dir) w.fs.dirs <;> simp [h]

/- ---------------------------------------------------------------------
   Concrete scenarios used by witnesses and counterexamples.
   --------------------------------------------------------------------- -/

/-- A deployable service class. -/
def sampleClass : ServiceClass :=
  { modName := "goodmod", clsName := "GoodService", nameAttr := none,
    isServiceSubclass := true, isServiceBase := false,
    isAdminServiceBase := false, hasDontDeploy := false }

/-- A module exposing one deployable class and one helper value. -/
def sampleModule : PyModule :=
  { modFile := "/srv/good.py"
    attrs := [("GoodService", .cls sampleClass), ("helper", .nonClass)] }

/-- A deployable class living in a zip-imported module. -/
def zipClass : ServiceClass :=
  { modName := "zipmod", clsName := "ZipService", nameAttr := none,
    isServiceSubclass := true, isServiceBase := false,
    isAdminServiceBase := false, hasDontDeploy := false }

/-- A module imported from inside a zip archive: its `__file__` points into
the archive, so the path is not stat-able on the filesystem. -/
def zipModule : PyModule :=
  { modFile := "/eggs/pkg.zip/m.py"
    attrs := [("ZipService", .cls zipClass)] }

/-- A concrete environment: one loadable source file, one zip-imported
module, a distribution manifest, and an ODB that always succeeds. -/
def sampleEnv : Env :=
  { sha256_hexdigest := fun bs => "sha-" ++ toString bs.length
    utcnow_iso := "2026-10-12T00:00:00"
    fs_safe_now := "20261012000000000000"
    uuid4_hex := ['a', 'b', 'c', '1', '2', '3', 'd', 'e']
    is_archive_file := fun s => strEndsWith s ".tar.gz"
    pyDistFiles := fun d => if d = "/dist/pkg" ∨ d = "zatodir" then ["/srv/good.py"] else []
    archive_entries := fun _ => [("pkg/svc.py", [1, 2, 3])]
    modulesByFile := [("/srv/good.py", sampleModule)]
    modulesByName := [("zipmod", zipModule)]
    add_service := fun _ _ _ _ _ _ => .ok (7, true) }

/-- A concrete starting world matching `sampleEnv`. -/
def sampleWorld : World :=
  { fs := { files := [("/srv/good.py", [10, 20])]
            unreadable := []
            dirs := ["zatodir", "/dist/pkg"]
            mtimes := [("/srv/good.py", 5)] }
    services := []
    odbCalls := [] }

/-- `sampleEnv` with a durable store whose registration callback raises. -/
def failEnv : Env :=
  { sampleEnv with add_service := fun _ _ _ _ _ _ => .error .exception }

/-- The provenance record captured for the sample module. -/
def sampleSourceInfo : SourceInfo :=
  source_code_info sampleEnv sampleWorld.fs sampleModule

/- ---------------------------------------------------------------------
   Claim theorems.
   --------------------------------------------------------------------- -/

/-- C2: an exposed attribute is judged deployable iff it is a class that
conforms (directly or transitively) to `Service`, it is neither the
`Service` base class itself nor the `AdminService` base class, and it does
not carry the dont-deploy marker; a non-class value never qualifies and is
rejected without an error (`_should_deploy` returns instead of raising). -/
theorem C2_should_deploy_characterization (name : String) (item : PyObject) :
    (ServiceStore._should_deploy name item = .ok true ↔
      ∃ c, item = .cls c ∧ c.isServiceSubclass = true ∧ c.isServiceBase = false
        ∧ c.isAdminServiceBase = false ∧ c.hasDontDeploy = false)
    ∧ ServiceStore._should_deploy name .nonClass = .ok false := by
  refine ⟨?_, rfl⟩
  cases item with
  | nonClass => simp [ServiceStore._should_deploy, issubclass_service]
  | cls c =>
    rw [should_deploy_cls]
    simp only [Except.ok.injEq, PyObject.cls.injEq, exists_eq_left', deployFlag,
      Bool.and_eq_true, Bool.not_eq_true']
    tauto

/-- C3: whenever `_get_source_code_info` records a digest, that digest is
the SHA-256 hex digest of exactly the source bytes recorded in the same
provenance record, and the algorithm name recorded alongside is
`"SHA-256"`. -/
theorem C3_digest_matches_recorded_bytes (env : Env) (mod : PyModule) (w : World)
    (si : SourceInfo)
    (h : (ServiceStore._get_source_code_info env mod w).1 = .ok si)
    (hd : si.hash.isSome = true) :
    ∃ b, si.source = some b ∧ si.hash = some (env.sha256_hexdigest b)
      ∧ si.hash_method = some "SHA-256" := by
  have hsi : si = source_code_info env w.fs mod := by
    have h0 : (ServiceStore._get_source_code_info env mod w).1
        = .ok (source_code_info env w.fs mod) := rfl
    rw [h0] at h
    exact (Except.ok.inj h).symm
  subst hsi
  unfold source_code_info at hd ⊢
  cases hr : openRead w.fs (source_file_of mod.modFile) with
  | error e => rw [hr] at hd; simp at hd
  | ok bytes => exact ⟨bytes, rfl, rfl, rfl⟩

theorem C3_digest_witness :
    ∃ b, sampleSourceInfo.source = some b
      ∧ sampleSourceInfo.hash = some (sampleEnv.sha256_hexdigest b)
      ∧ sampleSourceInfo.hash_method = some "SHA-256" :=
  C3_digest_matches_recorded_bytes sampleEnv sampleModule sampleWorld sampleSourceInfo
    rfl (by decide)

/-- C4 (code bug): when invoking a lifecycle hook fails — the hook raises,
or the attribute is missing — the except handler of `_invoke_hook` refers
to the undefined name `service_name` while formatting its log message, so a
`NameError` escapes to the caller instead of the failure being logged and
swallowed; only the success path is silent. -/
theorem C4_hook_failure_raises_name_error (hook_name : String) :
    ServiceStore._invoke_hook .raises hook_name = .error (.nameError "service_name")
    ∧ ServiceStore._invoke_hook .missing hook_name = .error (.nameError "service_name")
    ∧ ServiceStore._invoke_hook .succeeds hook_name = .ok () :=
  ⟨rfl, rfl, rfl⟩

/-- C6: for every item the batch import dispatches on the first matching
shape in the fixed order: recognized archive (extract, then treat the
result as a directory), then existing directory, then file with a
recognized Python source suffix, then importable module name. -/
theorem C6_dispatch_order (env : Env) (item base_dir work_dir : String) (w : World) :
    ServiceStore.import_one env item base_dir work_dir w =
      match dispatch_shape env w.fs item with
      | .archive =>
        (match ServiceStore.decompress env item work_dir w with
         | (.error e, w1) => (.error e, w1)
         | (.ok new_path, w1) => ServiceStore.import_services_from_directory env new_path w1)
      | .directory => ServiceStore.import_services_from_directory env item w
      | .pythonFile => ServiceStore.import_services_from_file env item
          (strStartsWith item "zato") (some base_dir) w
      | .moduleName => ServiceStore.import_services_from_module env item
          (strStartsWith item "zato") w := by
  unfold ServiceStore.import_one dispatch_shape
  by_cases h1 : env.is_archive_file item
  · simp [h1]
  · by_cases h2 : strMem item w.fs.dirs
    · simp [h1, h2]
    · by_cases h3 : is_python_file item
      · simp [h1, h2, h3]
      · simp [h1, h2, h3]

/-- C8: `decompress` synthesizes the scratch directory name
`{fs-safe timestamp}-{6 hex chars}/{archive basename}` under the working
root, raises `OSError` (never merges) when that directory already exists,
otherwise creates it, unpacks the archive contents into it and returns its
path. -/
theorem C8_decompress_behavior (env : Env) (archive work_dir : String) (w : World)
    (hlen : 6 ≤ env.uuid4_hex.length)
    (hhex : ∀ ch ∈ env.uuid4_hex, hexDigit ch = true) :
    (env.uuid4_hex.take 6).length = 6
    ∧ (∀ ch ∈ env.uuid4_hex.take 6, hexDigit ch = true)
    ∧ decompress_dir_name env archive work_dir
        = os_path_join (os_path_join work_dir
            (env.fs_safe_now ++ "-" ++ String.mk (env.uuid4_hex.take 6)))
          (basename archive)
    ∧ (strMem (decompress_dir_name env archive work_dir) w.fs.dirs = true →
        ServiceStore.decompress env archive work_dir w = (.error .osError, w))
    ∧ (strMem (decompress_dir_name env archive work_dir) w.fs.dirs = false →
        ServiceStore.decompress env archive work_dir w =
          (.ok (decompress_dir_name env archive work_dir),
            { w with fs := { w.fs with
                dirs := decompress_dir_name env archive work_dir :: w.fs.dirs
                files := (env.archive_entries archive).map
                  (fun e => (os_path_join (decompress_dir_name env archive work_dir) e.1, e.2))
                  ++ w.fs.files } })) := by
  refine ⟨?_, ?_, rfl, ?_, ?_⟩
  · rw [List.length_take]
    exact Nat.min_eq_left hlen
  · intro ch hch
    exact hhex ch (List.take_subset _ _ hch)
  · intro h
    unfold ServiceStore.decompress os_makedirs
    simp [h]
  · intro h
    unfold ServiceStore.decompress os_makedirs util_decompress
    simp [h]

theorem C8_decompress_witness :
    (sampleEnv.uuid4_hex.take 6).length = 6
    ∧ (∀ ch ∈ sampleEnv.uuid4_hex.take 6, hexDigit ch = true) :=
  (fun h => ⟨h.1, h.2.1⟩)
    (C8_decompress_behavior sampleEnv "/x/arch.tar.gz" "/work" sampleWorld
      (by decide) (by decide))

/-- C10: the registry write is not atomic with the durable store: the
entry (deployment info and implementation class) is stored under the
identity key before `odb.add_service` runs, so when the callback raises,
the raise propagates and the registry retains an entry for that identity
whose `is_active` field was never set. -/
theorem C10_registry_write_precedes_odb (env : Env) (mod : PyModule) (b : Bool)
    (loc : String) (w : World) (name : String) (c : ServiceClass)
    (rest : List (String × PyObject)) (e : PyError) (t : Nat)
    (hattrs : mod.attrs = (name, .cls c) :: rest)
    (hflag : deployFlag c = true)
    (hmt : assocFind mod.modFile w.fs.mtimes = some t)
    (hodb : env.add_service (get_name c) (get_impl_name c) b env.utcnow_iso
        (dumps (deployment_info "ServiceStore" c.clsName env.utcnow_iso loc))
        (source_code_info env w.fs mod) = .error e) :
    ∃ w', ServiceStore._visit_module env mod b loc w = (.error e, w')
      ∧ lookupService (get_impl_name c) w'.services = some
          { deployment_info := some (deployment_info "ServiceStore" c.clsName env.utcnow_iso loc)
            service_class := some c
            is_active := none }
      ∧ w'.odbCalls = w.odbCalls := by
  refine ⟨{ w with
      services :=
        setService (get_impl_name c)
          (ServiceRecord.mk
            (some (deployment_info "ServiceStore" c.clsName env.utcnow_iso loc))
            (some c) none)
          w.services },
    ?_, ?_, rfl⟩
  · unfold ServiceStore._visit_module
    rw [hattrs, visit_attrs_cons_cls, if_pos hflag]
    unfold ServiceStore.deploy_item ServiceStore._get_source_code_info os_path_getmtime
      odb_add_service
    simp [hmt, hodb]
  · exact lookupService_setService_self _ _ _

theorem C10_registry_write_witness :
    ∃ w', ServiceStore._visit_module failEnv sampleModule false "/srv/good.py" sampleWorld
        = (.error .exception, w')
      ∧ lookupService (get_impl_name sampleClass) w'.services = some
          { deployment_info := some (deployment_info "ServiceStore" sampleClass.clsName
              failEnv.utcnow_iso "/srv/good.py")
            service_class := some sampleClass
            is_active := none }
      ∧ w'.odbCalls = sampleWorld.odbCalls :=
  C10_registry_write_precedes_odb failEnv sampleModule false "/srv/good.py" sampleWorld
    "GoodService" sampleClass [("helper", .nonClass)] .exception 5 rfl rfl rfl rfl

/-- C1 counterexample: in a two-item batch whose first item is a source
file that does not exist, `import_services_from_anywhere` raises the
resolution `ValueError` out of the batch call and leaves the world
untouched — the second, perfectly importable item is never registered —
although importing the second item on its own does register a service. -/
theorem C1_counterexample :
    ServiceStore.import_services_from_anywhere sampleEnv
        ["/srv/missing.py", "/srv/good.py"] "/base" "/work" sampleWorld
      = (.error (.valueError
          "Could not import services, path:[/srv/missing.py] does not exist"), sampleWorld)
    ∧ (ServiceStore.import_services_from_anywhere sampleEnv
        ["/srv/good.py"] "/base" "/work" sampleWorld).2.services ≠ [] := by
  constructor
  · rfl
  · decide

/-- C1 amended: a failure to resolve an item (an absolute `.py` path that
does not exist) raises `ValueError` out of the batch call, aborting the
whole batch: no item after the failing one is resolved, loaded or
registered, and the world is left exactly as it was. -/
theorem C1_amended_failure_aborts_batch (env : Env) (bad : String)
    (rest : List String) (base_dir work_dir : String) (w : World)
    (h1 : env.is_archive_file bad = false)
    (h2 : strMem bad w.fs.dirs = false)
    (h3 : is_python_file bad = true)
    (h4 : os_path_isabs bad = true)
    (h5 : fs_exists w.fs bad = false) :
    ServiceStore.import_services_from_anywhere env (bad :: rest) base_dir work_dir w
      = (.error (.valueError ("Could not import services, path:[" ++ bad
          ++ "] does not exist")), w) := by
  unfold ServiceStore.import_services_from_anywhere ServiceStore.import_one
    ServiceStore.import_services_from_file
  simp [h1, h2, h3, h4, h5]

theorem C1_amended_witness :
    ServiceStore.import_services_from_anywhere sampleEnv
        ["/srv/missing.py", "/srv/good.py"] "/base" "/work" sampleWorld
      = (.error (.valueError ("Could not import services, path:[" ++ "/srv/missing.py"
          ++ "] does not exist")), sampleWorld) :=
  C1_amended_failure_aborts_batch sampleEnv "/srv/missing.py" ["/srv/good.py"]
    "/base" "/work" sampleWorld rfl rfl rfl rfl rfl

/-- C9 counterexample: a directory item whose name begins with `zato` —
the platform namespace — has its services registered with
`is_internal = false`, because `import_services_from_directory` hard-codes
`False`; the flag recorded is not `startswith('zato')` for files
discovered inside directories. -/
theorem C9_counterexample :
    strStartsWith "zatodir" "zato" = true
    ∧ ((ServiceStore.import_services_from_anywhere sampleEnv ["zatodir"] "/base" "/work"
        sampleWorld).2.odbCalls.map (fun x => x.is_internal)) = [false] := by
  constructor
  · decide
  · decide

/-- C9 amended: the flag recorded with each registration is
`startswith('zato')` of the item only for items dispatched as source files
or module names; for items dispatched as archives or directories every
registration performed carries `is_internal = false`, whatever the item is
called. -/
theorem C9_amended_internal_flag (env : Env) (item base_dir work_dir : String) (w : World) :
    (env.is_archive_file item = true →
      ∃ cs, (ServiceStore.import_one env item base_dir work_dir w).2.odbCalls
          = w.odbCalls ++ cs ∧ ∀ x ∈ cs, x.is_internal = false)
    ∧ (env.is_archive_file item = false → strMem item w.fs.dirs = true →
      ∃ cs, (ServiceStore.import_one env item base_dir work_dir w).2.odbCalls
          = w.odbCalls ++ cs ∧ ∀ x ∈ cs, x.is_internal = false)
    ∧ (env.is_archive_file item = false → strMem item w.fs.dirs = false →
        is_python_file item = true →
      ∃ cs, (ServiceStore.import_one env item base_dir work_dir w).2.odbCalls
          = w.odbCalls ++ cs ∧ ∀ x ∈ cs, x.is_internal = strStartsWith item "zato")
    ∧ (env.is_archive_file item = false → strMem item w.fs.dirs = false →
        is_python_file item = false →
      ∃ cs, (ServiceStore.import_one env item base_dir work_dir w).2.odbCalls
          = w.odbCalls ++ cs ∧ ∀ x ∈ cs, x.is_internal = strStartsWith item "zato") := by
  refine ⟨?_, ?_, ?_, ?_⟩
  · intro h1
    unfold ServiceStore.import_one
    simp only [h1, if_true]
    cases hd : ServiceStore.decompress env item work_dir w with
    | mk r w1 =>
      have hw1 : w1.odbCalls = w.odbCalls := by
        have := decompress_odbCalls env item work_dir w
        rw [hd] at this
        exact this
      cases r with
      | error e => exact ⟨[], by simp [hw1], by simp⟩
      | ok np =>
        obtain ⟨cs, h, f⟩ := import_dir_calls env np w1
        exact ⟨cs, by dsimp only; rw [h, hw1], f⟩
  · intro h1 h2
    unfold ServiceStore.import_one
    simp only [h1, h2, if_true, if_false, Bool.false_eq_true]
    exact import_dir_calls env item w
  · intro h1 h2 h3
    unfold ServiceStore.import_one
    simp only [h1, h2, h3, if_true, if_false, Bool.false_eq_true]
    exact import_file_calls env item (strStartsWith item "zato") (some base_dir) w
  · intro h1 h2 h3
    unfold ServiceStore.import_one
    simp only [h1, h2, h3, if_false, Bool.false_eq_true]
    exact import_module_calls env item (strStartsWith item "zato") w

theorem C9_amended_witness :
    ∃ cs, (ServiceStore.import_one sampleEnv "zatodir" "/base" "/work" sampleWorld).2.odbCalls
        = sampleWorld.odbCalls ++ cs ∧ ∀ x ∈ cs, x.is_internal = false :=
  (C9_amended_internal_flag sampleEnv "zatodir" "/base" "/work" sampleWorld).2.1
    (by decide) (by decide)

/-- C7 counterexample: for a unit imported by module name whose recorded
file path is not stat-able (for example a module loaded from inside a zip
archive), provenance capture does return an empty record without raising,
but the subsequent `getmtime(mod.__file__)` raises `OSError`, so the whole
batch call errors out and no descriptor is ever registered with the
durable store. -/
theorem C7_counterexample :
    source_code_info sampleEnv sampleWorld.fs zipModule = ({} : SourceInfo)
    ∧ (ServiceStore.import_services_from_anywhere sampleEnv ["zipmod"] "/base" "/work"
        sampleWorld).1 = .error .osError
    ∧ (ServiceStore.import_services_from_anywhere sampleEnv ["zipmod"] "/base" "/work"
        sampleWorld).2.odbCalls = [] := by
  refine ⟨?_, ?_, ?_⟩
  · rfl
  · rfl
  · rfl

/-- C7 amended: when reading the unit source raises `IOError` while the
unit file itself is still stat-able (its mtime is readable), provenance
capture returns the empty record instead of raising, and every eligible
attribute of the unit is still deployed: the visit completes without
error and each eligible attribute ends up registered with its `is_active`
field set. -/
theorem C7_amended_read_failure (env : Env) (mod : PyModule) (b : Bool) (loc : String)
    (w : World) (t : Nat)
    (hread : openRead w.fs (source_file_of mod.modFile) = .error .ioError)
    (hmt : assocFind mod.modFile w.fs.mtimes = some t)
    (hodb : odb_always_ok env)
    (hnodup : (deployable_names mod.attrs).Nodup) :
    source_code_info env w.fs mod = ({} : SourceInfo)
    ∧ (∃ cs, ServiceStore._visit_module env mod b loc w =
        (.ok (), { fs := w.fs
                   services := visit_fold env w.fs mod b loc mod.attrs w.services
                   odbCalls := w.odbCalls ++ cs }))
    ∧ (∀ name c, (name, .cls c) ∈ mod.attrs → deployFlag c = true →
        lookupService (get_impl_name c) (visit_fold env w.fs mod b loc mod.attrs w.services)
          = some (deployed_record env w.fs mod b loc c)
        ∧ (deployed_record env w.fs mod b loc c).is_active.isSome = true) := by
  refine ⟨?_, ?_, ?_⟩
  · unfold source_code_info
    rw [hread]
  · exact visit_attrs_run env mod b loc t hodb mod.attrs w hmt
  · intro name c hmem hflag
    exact ⟨lookupService_visit_fold_mem env w.fs mod b loc mod.attrs w.services name c
      hnodup hmem hflag, rfl⟩

/-- The sample world with the source file present but unreadable. -/
def unreadableWorld : World :=
  { sampleWorld with fs := { sampleWorld.fs with unreadable := ["/srv/good.py"] } }

theorem C7_amended_witness :
    source_code_info sampleEnv unreadableWorld.fs sampleModule = ({} : SourceInfo)
    ∧ (∃ cs, ServiceStore._visit_module sampleEnv sampleModule false "/srv/good.py"
        unreadableWorld =
        (.ok (), { fs := unreadableWorld.fs
                   services := visit_fold sampleEnv unreadableWorld.fs sampleModule false
                     "/srv/good.py" sampleModule.attrs unreadableWorld.services
                   odbCalls := unreadableWorld.odbCalls ++ cs })) :=
  (fun h => ⟨h.1, h.2.1⟩)
    (C7_amended_read_failure sampleEnv sampleModule false "/srv/good.py" unreadableWorld 5
      rfl rfl (fun n k b t d s => ⟨(7, true), rfl⟩) (by decide))

/-- C5: importing the same source file twice yields exactly one registry
descriptor per identity: after both imports the key list is duplicate-free
and unchanged by the second import, and for each deployable attribute the
entry stored under its identity key is the one written by the second of
the two imports. -/
theorem C5_reimport_overwrites (env1 env2 : Env) (fn : String) (b1 b2 : Bool)
    (bd1 bd2 : Option String) (w : World) (m : PyModule) (t : Nat)
    (habs : os_path_isabs fn = true)
    (hmod1 : assocFind fn env1.modulesByFile = some m)
    (hmod2 : assocFind fn env2.modulesByFile = some m)
    (hex : fs_exists w.fs fn = true)
    (hmt : assocFind fn w.fs.mtimes = some t)
    (hodb1 : odb_always_ok env1) (hodb2 : odb_always_ok env2)
    (hnodup : (deployable_names m.attrs).Nodup)
    (hw : (keysOf w.services).Nodup) :
    ∃ w1 w2,
      ServiceStore.import_services_from_file env1 fn b1 bd1 w = (.ok (), w1)
      ∧ ServiceStore.import_services_from_file env2 fn b2 bd2 w1 = (.ok (), w2)
      ∧ (keysOf w1.services).Nodup
      ∧ (keysOf w2.services).Nodup
      ∧ keysOf w2.services = keysOf w1.services
      ∧ (∀ name c, (name, .cls c) ∈ m.attrs → deployFlag c = true →
          lookupService (get_impl_name c) w2.services
            = some (deployed_record env2 (rmcFS w.fs fn) { m with modFile := fn } b2 fn c)) := by
  obtain ⟨cs1, h1⟩ := import_file_run env1 fn b1 bd1 w m t habs hmod1 hex hmt hodb1
  obtain ⟨cs2, h2⟩ := import_file_run env2 fn b2 bd2
    { fs := rmcFS w.fs fn
      services := visit_fold env1 (rmcFS w.fs fn) { m with modFile := fn } b1 fn
        m.attrs w.services
      odbCalls := w.odbCalls ++ cs1 } m t habs hmod2
    (show fs_exists (rmcFS w.fs fn) fn = true by rw [fs_exists_rmcFS_self]; exact hex)
    hmt hodb2
  dsimp only at h2
  rw [rmcFS_idem] at h2
  refine ⟨_, _, h1, h2, ?_, ?_, ?_, ?_⟩
  · exact keysOf_visit_fold_nodup env1 (rmcFS w.fs fn) { m with modFile := fn } b1 fn
      m.attrs w.services hw
  · exact keysOf_visit_fold_nodup env2 (rmcFS w.fs fn) { m with modFile := fn } b2 fn
      m.attrs _
      (keysOf_visit_fold_nodup env1 (rmcFS w.fs fn) { m with modFile := fn } b1 fn
        m.attrs w.services hw)
  · exact keysOf_visit_fold_of_subset env2 (rmcFS w.fs fn) { m with modFile := fn } b2 fn
      m.attrs _
      (fun k hk => deployable_names_subset_keysOf_visit_fold env1 (rmcFS w.fs fn)
        { m with modFile := fn } b1 fn m.attrs w.services k hk)
  · intro name c hmem hflag
    exact lookupService_visit_fold_mem env2 (rmcFS w.fs fn) { m with modFile := fn } b2 fn
      m.attrs _ name c hnodup hmem hflag

/-- `sampleEnv` observed at a later wall-clock instant. -/
def laterEnv : Env := { sampleEnv with utcnow_iso := "2026-10-12T11:11:11" }

theorem C5_reimport_witness :
    ∃ w1 w2,
      ServiceStore.import_services_from_file sampleEnv "/srv/good.py" false none
          sampleWorld = (.ok (), w1)
      ∧ ServiceStore.import_services_from_file laterEnv "/srv/good.py" false none w1
          = (.ok (), w2)
      ∧ (keysOf w1.services).Nodup
      ∧ (keysOf w2.services).Nodup
      ∧ keysOf w2.services = keysOf w1.services
      ∧ (∀ name c, (name, .cls c) ∈ sampleModule.attrs → deployFlag c = true →
          lookupService (get_impl_name c) w2.services
            = some (deployed_record laterEnv (rmcFS sampleWorld.fs "/srv/good.py")
                { sampleModule with modFile := "/srv/good.py" } false "/srv/good.py" c)) :=
  C5_reimport_overwrites sampleEnv laterEnv "/srv/good.py" false false none none
    sampleWorld sampleModule 5 rfl rfl rfl rfl rfl
    (fun n k b t d s => ⟨(7, true), rfl⟩) (fun n k b t d s => ⟨(7, true), rfl⟩)
    (by decide) (by decide)
